import Mathlib

/-!
Shallow embedding of the Arthas MCP client (src/src/client.py and
src/src/models.py) and proofs about the claims of the specification.

The embedding models:
  * the data model of `models.py` (`ArthasConnection`, `ArthasResponse`);
  * the command normalizer `_ensure_persistent_command_limits`;
  * the async orchestrator `execute_persistent_command_async`, with the
    remote server's behaviour given as explicit data (one outcome per
    HTTP request the code issues);
  * the one-shot `execute_command`, `connect` and `disconnect` paths at
    the level of detail the claims need.

Real time (the `pull_timeout` passed to `asyncio.wait_for`) is not modelled;
a poll attempt that times out is an explicit event.  Exceptions are modelled
as values `(type-name, str(e))`; the textual `repr` of an exception is
abstracted as `ty ++ "(" ++ msg ++ ")"` (only its non-emptiness matters).
-/

namespace ArthasMcp

/-! ## Data model (models.py) -/

/-- `ArthasConnection` of models.py: the fields the client code reads or
writes (`connected_at` is never consulted and is omitted). -/
structure ArthasConnection where
  host : String
  port : Nat
  session_id : Option String
  is_connected : Bool
deriving DecidableEq

/-- The mutable state of an `ArthasClient` instance: its connection record
and whether `self._client` is set (`hasClient = true` iff `self._client`
is not `None`). -/
structure ClientState where
  connection : ArthasConnection
  hasClient : Bool
deriving DecidableEq

/-- One result record of a poll batch.  The code only reads
`result.get("type")` and `result.get("statusCode")`; `payload` stands for
the rest of the JSON object so that distinct records stay distinct. -/
structure ResultRec where
  rtype : Option String
  statusCode : Option Int
  payload : String
deriving DecidableEq

/-- The `data` dictionaries the client puts into responses. -/
inductive RespData where
  /-- `{"results": all_results, "async_execution": True}` -/
  | asyncResults (results : List ResultRec) (asyncExecution : Bool)
  /-- `{"response": ...}` returned by `connect` (content irrelevant here) -/
  | connectData (rendered : String)
  /-- the body dictionary returned by `execute_command` on HTTP 200
  (parsed JSON, or the raw-text / error fallbacks; all are some dict) -/
  | execData (rendered : String)
deriving DecidableEq

/-- `ArthasResponse` of models.py (the `timestamp` field is wall-clock
time and is not modelled). -/
structure ArthasResponse where
  status : String
  message : Option String
  data : Option RespData
  error : Option String
deriving DecidableEq

/-- Python truthiness test `not x` for an optional string:
true for `None` and for the empty string. -/
def pyFalsy : Option String → Bool
  | none => true
  | some s => s == ""

/-- `error_msg = str(e) if str(e).strip() else repr(e)` — the message the
except-blocks derive from an exception `(ty, msg)`; `repr(e)` is abstracted
as `ty ++ "(" ++ msg ++ ")"`. -/
def pyExcStr (ty msg : String) : String :=
  if msg.trim == "" then ty ++ "(" ++ msg ++ ")" else msg

/-! ## Command normalizer (`_ensure_persistent_command_limits`) -/

/-- `PERSISTENT_COMMANDS` of client.py. -/
def PERSISTENT_COMMANDS : List String := ["watch", "trace", "tt", "stack", "jfr"]

/-- `DEFAULT_COUNTS` of client.py. -/
def DEFAULT_COUNTS : List (String × Nat) :=
  [("watch", 5), ("trace", 3), ("tt", 10), ("stack", 3), ("jfr", 1)]

/-- Helper for `pySplitTokens`: walk the characters, `acc` holds the
current token's characters in reverse. -/
def pySplitAux : List Char → List Char → List String
  | [], acc => if acc.isEmpty then [] else [String.mk acc.reverse]
  | c :: cs, acc =>
    if c.isWhitespace then
      if acc.isEmpty then pySplitAux cs [] else String.mk acc.reverse :: pySplitAux cs []
    else pySplitAux cs (c :: acc)

/-- `command.strip().split()`: split on whitespace runs, producing no empty
tokens (leading/trailing whitespace is absorbed, so `strip` adds nothing). -/
def pySplitTokens (command : String) : List String :=
  pySplitAux command.data []

/-- `_ensure_persistent_command_limits` of client.py. -/
def ensurePersistentCommandLimits (command : String) : String :=
  match pySplitTokens command with
  | [] => command
  | cmdName :: rest =>
    if cmdName ∉ PERSISTENT_COMMANDS then command
    else if "-n" ∈ cmdName :: rest then command
    else
      String.intercalate " "
        (cmdName :: "-n" :: toString ((DEFAULT_COUNTS.lookup cmdName).getD 3) :: rest)

/-- Per-verb default counts exactly as the specification states them
(watch=5, trace=3, tt=10, stack=3, jfr=1, any other persistent verb 3);
written from the spec's words, to be compared with `DEFAULT_COUNTS`. -/
def specDefaultCount (verb : String) : Nat :=
  if verb = "watch" then 5
  else if verb = "trace" then 3
  else if verb = "tt" then 10
  else if verb = "stack" then 3
  else if verb = "jfr" then 1
  else 3

/-! ### Normalizer theorems -/

theorem lookup_agrees_specDefault (verb : String) (hverb : verb ∈ PERSISTENT_COMMANDS) :
    (DEFAULT_COUNTS.lookup verb).getD 3 = specDefaultCount verb := by
  simp only [PERSISTENT_COMMANDS, List.mem_cons, List.not_mem_nil, or_false] at hverb
  rcases hverb with h | h | h | h | h <;> subst h <;> rfl

/-- C4: for every persistent verb in {watch, trace, tt, stack, jfr} and every
argument list that does not contain the token "-n", the normalizer returns
the command with "-n" and the per-verb default count (watch=5, trace=3,
tt=10, stack=3, jfr=1) inserted immediately after the verb, followed by the
original arguments in order. -/
theorem C4_default_limit_inserted (command verb : String) (rest : List String)
    (hsplit : pySplitTokens command = verb :: rest)
    (hverb : verb ∈ PERSISTENT_COMMANDS)
    (hno : "-n" ∉ verb :: rest) :
    ensurePersistentCommandLimits command =
      String.intercalate " " (verb :: "-n" :: toString (specDefaultCount verb) :: rest) := by
  unfold ensurePersistentCommandLimits
  rw [hsplit]
  simp [hverb, hno, lookup_agrees_specDefault verb hverb]

theorem C4_default_limit_inserted_witness :
    pySplitTokens "trace demo.Foo get" = "trace" :: ["demo.Foo", "get"] ∧
    "trace" ∈ PERSISTENT_COMMANDS ∧
    "-n" ∉ "trace" :: ["demo.Foo", "get"] ∧
    ensurePersistentCommandLimits "trace demo.Foo get" =
      String.intercalate " "
        ("trace" :: "-n" :: toString (specDefaultCount "trace") :: ["demo.Foo", "get"]) :=
  ⟨by decide, by decide, by decide,
    C4_default_limit_inserted "trace demo.Foo get" "trace" ["demo.Foo", "get"]
      (by decide) (by decide) (by decide)⟩

/-- C7: the normalizer returns the input string unchanged when the token
"-n" is already present among the tokens, when the verb is not in the
persistent set, or when the input tokenizes to the empty list. -/
theorem C7_normalizer_identity_cases (command : String)
    (h : pySplitTokens command = [] ∨
         (∃ v rest, pySplitTokens command = v :: rest ∧ v ∉ PERSISTENT_COMMANDS) ∨
         "-n" ∈ pySplitTokens command) :
    ensurePersistentCommandLimits command = command := by
  unfold ensurePersistentCommandLimits
  rcases h with h | ⟨v, rest, hsplit, hv⟩ | h
  · rw [h]
  · rw [hsplit]; simp [hv]
  · cases hsplit : pySplitTokens command with
    | nil => rfl
    | cons v rest =>
      rw [hsplit] at h
      by_cases hv : v ∈ PERSISTENT_COMMANDS <;> simp [hv, h]

theorem C7_normalizer_identity_cases_witness :
    ("-n" ∈ pySplitTokens "watch -n 3 demo.Foo get") ∧
    ensurePersistentCommandLimits "watch -n 3 demo.Foo get" = "watch -n 3 demo.Foo get" :=
  ⟨by decide,
    C7_normalizer_identity_cases "watch -n 3 demo.Foo get" (Or.inr (Or.inr (by decide)))⟩

/-! ## Async orchestrator (`execute_persistent_command_async`) -/

deriving instance DecidableEq for Except

/-- `result.get("type") == "status" and result.get("statusCode") == 0`:
the terminal marker of the poll loop. -/
def isTerminalRec (r : ResultRec) : Bool :=
  r.rtype == some "status" && r.statusCode == some 0

/-- Outcome of one `pull_results` request (one iteration of the poll loop). -/
inductive PullEvent where
  /-- `asyncio.wait_for` raised `asyncio.TimeoutError` -/
  | timeout
  /-- the POST returned with this HTTP status; `body` is `.ok results` when
  `pull_response.json()` parses (missing `body`/`results` keys default to
  `[]`), `.error msg` when `.json()` raises.  The body is only inspected on
  status 200, as in the code. -/
  | response (statusCode : Nat) (body : Except String (List ResultRec))
  /-- the POST raised a non-timeout exception `(ty, msg)` -/
  | netError (ty msg : String)
deriving DecidableEq

/-- How the poll loop of client.py ends. -/
inductive LoopResult where
  /-- the `while` was left normally: its condition turned false, or the
  `break` after a terminal marker ran -/
  | exited (allResults : List ResultRec) (pullsIssued : Nat)
  /-- an exception propagated out of the loop: a non-timeout network error,
  or a JSON parse error (only `asyncio.TimeoutError` is caught inside) -/
  | raised (ty msg : String) (pullsIssued : Nat)
  /-- the supplied event list ran out while the loop would have issued
  another pull: the real call is still inside the loop at this point -/
  | starved (allResults : List ResultRec) (pullCount pullsIssued : Nat)
deriving DecidableEq

/-- The poll loop of `execute_persistent_command_async` (client.py lines
331–367).  `allResults` and `pullCount` mirror the Python variables;
`pullsIssued` counts the pull requests actually sent, one per iteration.
Note the non-200 branch: the code has no else-arm for
`pull_response.status_code != 200`, so `pull_count` is not incremented
there and the iteration leaves every variable unchanged. -/
def pollLoop (maxPulls : Nat) (events : List PullEvent)
    (allResults : List ResultRec) (pullCount pullsIssued : Nat) : LoopResult :=
  if pullCount < maxPulls then
    match events with
    | [] => .starved allResults pullCount pullsIssued
    | e :: rest =>
      match e with
      | .timeout => pollLoop maxPulls rest allResults (pullCount + 1) (pullsIssued + 1)
      | .netError ty msg => .raised ty msg (pullsIssued + 1)
      | .response status body =>
        if status == 200 then
          match body with
          | .error msg => .raised "JSONDecodeError" msg (pullsIssued + 1)
          | .ok results =>
            if results.isEmpty then
              pollLoop maxPulls rest allResults (pullCount + 1) (pullsIssued + 1)
            else if results.any isTerminalRec then
              .exited (allResults ++ results) (pullsIssued + 1)
            else
              pollLoop maxPulls rest (allResults ++ results) (pullCount + 1) (pullsIssued + 1)
        else
          pollLoop maxPulls rest allResults pullCount (pullsIssued + 1)
  else
    .exited allResults pullsIssued

/-- Outcome of the `init_session` request. -/
inductive InitOutcome where
  /-- the POST raised a network exception `(ty, msg)` -/
  | netError (ty msg : String)
  /-- HTTP response; on status 200 the code parses the body:
  `.ok (sessionId, consumerId)` gives the two `session_data.get` lookups,
  `.error msg` models `init_response.json()` raising -/
  | response (statusCode : Nat) (body : Except String (Option String × Option String))
deriving DecidableEq

/-- Parsed body of the `async_exec` response. -/
structure ExecBody where
  state : Option String
  jobId : Option String
  /-- textual rendering of the whole dict, as interpolated into the
  message `Command not scheduled: ...` -/
  rendered : String
deriving DecidableEq

/-- Outcome of the `async_exec` request. -/
inductive ExecOutcome where
  | netError (ty msg : String)
  | response (statusCode : Nat) (body : Except String ExecBody)
deriving DecidableEq

/-- The remote server's behaviour for one orchestration: one outcome per
request the code can issue.  `interruptRaises` / `closeRaises` give the
exception (if any) the two cleanup POSTs raise; the code swallows both. -/
structure ServerBehavior where
  init : InitOutcome
  exec : ExecOutcome
  pulls : List PullEvent
  interruptRaises : Option (String × String)
  closeRaises : Option (String × String)
deriving DecidableEq

/-- Requests issued in one invocation, by kind. -/
structure Trace where
  initCount : Nat
  execCount : Nat
  pullsIssued : Nat
  interruptCount : Nat
  closeCount : Nat
deriving DecidableEq

/-- Result of one orchestration run against a finite server behaviour. -/
inductive OrchOutcome where
  | returned (resp : ArthasResponse) (tr : Trace)
  /-- the event list was exhausted inside the poll loop: the call has not
  returned and would issue further pull requests -/
  | blocked (allResults : List ResultRec) (tr : Trace)
deriving DecidableEq

/-- The "Not connected" early return shared by `execute_command` and
`execute_persistent_command_async`. -/
def notConnectedResponse : ArthasResponse :=
  ⟨"error", none, none, some "Not connected to Arthas, please call connect first"⟩

/-- The response built by the outer except-block of
`execute_persistent_command_async` for an exception `(ty, msg)`. -/
def asyncErrorResponse (ty msg : String) : ArthasResponse :=
  ⟨"error", none, none,
    some ("Async command execution failed [" ++ ty ++ "]: " ++ pyExcStr ty msg)⟩

/-- The success response of `execute_persistent_command_async`. -/
def asyncSuccessResponse (command : String) (allResults : List ResultRec) : ArthasResponse :=
  ⟨"success",
    some ("Command '" ++ command ++ "' executed with " ++ toString allResults.length
      ++ " results (async mode)"),
    some (.asyncResults allResults true), none⟩

/-- The warning response of `execute_persistent_command_async` (empty
aggregate after the loop). -/
def asyncWarningResponse (command : String) : ArthasResponse :=
  ⟨"warning",
    some ("Command '" ++ command ++ "' executed but no results received (possibly no matching calls)"),
    some (.asyncResults [] true), none⟩

/-- Steps 4–6 of `execute_persistent_command_async`: cleanup (interrupt +
close, each issued once, exceptions swallowed) and the final response
mapping `if all_results: success else warning`. -/
def afterLoop (command : String) (allResults : List ResultRec) (pullsIssued : Nat) :
    OrchOutcome :=
  .returned
    (if allResults.isEmpty then asyncWarningResponse command
     else asyncSuccessResponse command allResults)
    ⟨1, 1, pullsIssued, 1, 1⟩

/-- `execute_persistent_command_async` of client.py, as a function of the
client state and the server's behaviour.  The state is returned unchanged
because the method never writes `self.connection` or `self._client`.
`pullTimeout` only parameterizes `asyncio.wait_for`; real time is not
modelled, so it is unused here (a timeout is an explicit `PullEvent`). -/
def executePersistentCommandAsync (st : ClientState) (command : String)
    (_pullTimeout maxPulls : Nat) (b : ServerBehavior) : ClientState × OrchOutcome :=
  if !st.connection.is_connected || !st.hasClient then
    (st, .returned notConnectedResponse ⟨0, 0, 0, 0, 0⟩)
  else
    match b.init with
    | .netError ty msg => (st, .returned (asyncErrorResponse ty msg) ⟨1, 0, 0, 0, 0⟩)
    | .response initStatus initBody =>
      if initStatus != 200 then
        (st, .returned
          (asyncErrorResponse "Exception" ("Failed to create session: HTTP " ++ toString initStatus))
          ⟨1, 0, 0, 0, 0⟩)
      else
        match initBody with
        | .error jmsg =>
          (st, .returned (asyncErrorResponse "JSONDecodeError" jmsg) ⟨1, 0, 0, 0, 0⟩)
        | .ok (sessionId, consumerId) =>
          if pyFalsy sessionId || pyFalsy consumerId then
            (st, .returned (asyncErrorResponse "Exception" "Failed to get session info")
              ⟨1, 0, 0, 0, 0⟩)
          else
            match b.exec with
            | .netError ty msg =>
              (st, .returned (asyncErrorResponse ty msg) ⟨1, 1, 0, 0, 0⟩)
            | .response execStatus execBody =>
              if execStatus != 200 then
                (st, .returned
                  (asyncErrorResponse "Exception"
                    ("Failed to execute command: HTTP " ++ toString execStatus))
                  ⟨1, 1, 0, 0, 0⟩)
              else
                match execBody with
                | .error jmsg =>
                  (st, .returned (asyncErrorResponse "JSONDecodeError" jmsg) ⟨1, 1, 0, 0, 0⟩)
                | .ok body =>
                  if body.state != some "SCHEDULED" then
                    (st, .returned
                      (asyncErrorResponse "Exception" ("Command not scheduled: " ++ body.rendered))
                      ⟨1, 1, 0, 0, 0⟩)
                  else
                    match pollLoop maxPulls b.pulls [] 0 0 with
                    | .starved allResults _ pullsIssued =>
                      (st, .blocked allResults ⟨1, 1, pullsIssued, 0, 0⟩)
                    | .raised ty msg pullsIssued =>
                      (st, .returned (asyncErrorResponse ty msg) ⟨1, 1, pullsIssued, 0, 0⟩)
                    | .exited allResults pullsIssued =>
                      (st, afterLoop command allResults pullsIssued)

/-! ### Poll-loop lemmas -/

/-- The records an event contributes to `all_results`. -/
def eventBatch : PullEvent → List ResultRec
  | .response status (.ok results) => if status == 200 then results else []
  | _ => []

/-- A poll event the loop digests as "count one attempt and continue": a
timeout, or an HTTP-200 response whose batch holds no terminal marker. -/
def countingNonTerminal (e : PullEvent) : Prop :=
  e = .timeout ∨
    ∃ results, e = .response 200 (.ok results) ∧ results.any isTerminalRec = false

theorem pollLoop_step (mp : Nat) (e : PullEvent) (rest : List PullEvent)
    (acc : List ResultRec) (pc pi : Nat) (hpc : pc < mp) (he : countingNonTerminal e) :
    pollLoop mp (e :: rest) acc pc pi
      = pollLoop mp rest (acc ++ eventBatch e) (pc + 1) (pi + 1) := by
  rcases he with rfl | ⟨results, rfl, hno⟩
  · conv_lhs => rw [pollLoop.eq_def]
    simp [hpc, eventBatch]
  · conv_lhs => rw [pollLoop.eq_def]
    by_cases hres : results.isEmpty
    · rw [List.isEmpty_iff] at hres
      simp [hpc, eventBatch, hres]
    · simp [hpc, eventBatch, hres, hno]

theorem pollLoop_exhaust (mp : Nat) (events : List PullEvent) :
    ∀ acc pc pi, (∀ e ∈ events, countingNonTerminal e) → pc + events.length = mp →
    pollLoop mp events acc pc pi
      = .exited (acc ++ (events.map eventBatch).flatten) (pi + events.length) := by
  induction events with
  | nil =>
    intro acc pc pi _ hlen
    conv_lhs => rw [pollLoop.eq_def]
    simp at hlen
    simp [hlen]
  | cons e rest ih =>
    intro acc pc pi hall hlen
    simp only [List.length_cons] at hlen
    have hpc : pc < mp := by omega
    rw [pollLoop_step mp e rest acc pc pi hpc (hall e (by simp)),
      ih (acc ++ eventBatch e) (pc + 1) (pi + 1) (fun x hx => hall x (by simp [hx])) (by omega)]
    simp [List.append_assoc]
    omega

theorem pollLoop_marker (mp : Nat) (pre : List PullEvent) :
    ∀ acc pc pi (last : List ResultRec) (rest : List PullEvent),
      (∀ e ∈ pre, countingNonTerminal e) → pc + pre.length < mp →
      last.any isTerminalRec = true →
      pollLoop mp (pre ++ PullEvent.response 200 (Except.ok last) :: rest) acc pc pi
        = .exited (acc ++ (pre.map eventBatch).flatten ++ last) (pi + pre.length + 1) := by
  induction pre with
  | nil =>
    intro acc pc pi last rest _ hpc hterm
    have hne : last.isEmpty = false := by
      cases last with
      | nil => simp at hterm
      | cons a as => rfl
    conv_lhs => rw [pollLoop.eq_def]
    simp only [List.length_nil, Nat.add_zero] at hpc
    simp [hpc, hne, hterm]
  | cons e pre ih =>
    intro acc pc pi last rest hall hpc hterm
    simp only [List.length_cons] at hpc
    have hpc1 : pc < mp := by omega
    rw [List.cons_append,
      pollLoop_step mp e (pre ++ PullEvent.response 200 (Except.ok last) :: rest)
        acc pc pi hpc1 (hall e (by simp)),
      ih (acc ++ eventBatch e) (pc + 1) (pi + 1) last rest
        (fun x hx => hall x (by simp [hx])) (by omega) hterm]
    simp [List.append_assoc]
    omega

theorem pollLoop_non200_starves (mp status : Nat) (hs : (status == 200) = false)
    (body : Except String (List ResultRec)) (n : Nat) :
    ∀ acc pc pi, pc < mp →
      pollLoop mp (List.replicate n (PullEvent.response status body)) acc pc pi
        = .starved acc pc (pi + n) := by
  induction n with
  | zero =>
    intro acc pc pi hpc
    conv_lhs => rw [pollLoop.eq_def]
    simp [hpc]
  | succ n ih =>
    intro acc pc pi hpc
    rw [List.replicate_succ]
    conv_lhs => rw [pollLoop.eq_def]
    simp only [hpc, if_pos, hs, if_neg, Bool.false_eq_true]
    rw [ih acc pc (pi + 1) hpc]
    simp
    omega

/-! ### Orchestration reduction lemmas -/

/-- Under a successful session-init and a SCHEDULED async_exec, the
orchestration is decided by the poll loop's outcome. -/
theorem orch_run_loop (st : ClientState) (cmd : String) (pt mp : Nat) (b : ServerBehavior)
    (hconn : st.connection.is_connected = true) (hcl : st.hasClient = true)
    (sid cid : String) (hsid : (sid == "") = false) (hcid : (cid == "") = false)
    (hinit : b.init = .response 200 (.ok (some sid, some cid)))
    (body : ExecBody) (hexec : b.exec = .response 200 (.ok body))
    (hstate : body.state = some "SCHEDULED") :
    executePersistentCommandAsync st cmd pt mp b =
      (match pollLoop mp b.pulls [] 0 0 with
       | .starved allResults _ pi => (st, .blocked allResults ⟨1, 1, pi, 0, 0⟩)
       | .raised ty msg pi => (st, .returned (asyncErrorResponse ty msg) ⟨1, 1, pi, 0, 0⟩)
       | .exited allResults pi => (st, afterLoop cmd allResults pi)) := by
  unfold executePersistentCommandAsync
  rw [hinit, hexec]
  simp [hconn, hcl, pyFalsy, hsid, hcid, hstate]

/-! ### Response-shape helpers -/

theorem append_ne_empty_left (s t : String) (h : s ≠ "") : s ++ t ≠ "" := by
  intro heq
  apply h
  cases s with
  | mk sd =>
    cases t with
    | mk td =>
      have hdata : sd ++ td = [] := congrArg String.data heq
      have hsd : sd = [] := (List.append_eq_nil.mp hdata).1
      subst hsd
      rfl

theorem asyncErrorResponse_error_nonempty (ty msg : String) :
    ∃ m, (asyncErrorResponse ty msg).error = some m ∧ m ≠ "" :=
  ⟨_, rfl,
    append_ne_empty_left _ _ (append_ne_empty_left _ _ (append_ne_empty_left _ _ (by decide)))⟩

/-! ### Concrete sample data used by witnesses and counterexamples -/

/-- A connected client state. -/
def stConn : ClientState := ⟨⟨"localhost", 8563, none, true⟩, true⟩

/-- An interim (non-terminal) result record. -/
def interimRec : ResultRec := ⟨some "result", none, "interim"⟩

/-- A record arriving after the terminal marker in the same batch. -/
def trailingRec : ResultRec := ⟨some "result", none, "trailing"⟩

/-- The terminal marker record `{type: "status", statusCode: 0}`. -/
def markerRec : ResultRec := ⟨some "status", some 0, "done"⟩

/-- A successful `init_session` outcome. -/
def goodInit : InitOutcome := .response 200 (.ok (some "sess-1", some "cons-1"))

/-- The parsed body of a successful `async_exec` response. -/
def goodExecBody : ExecBody := ⟨some "SCHEDULED", some "job-7", "job"⟩

/-- A successful `async_exec` outcome. -/
def goodExec : ExecOutcome := .response 200 (.ok goodExecBody)

/-! ### C2: the pull budget -/

/-- C2 (evidence of the code bug): with every pull_results request answered
HTTP 500, the poll loop of execute_persistent_command_async issues `n` pull
requests, for every `n`, without leaving the loop and with `pull_count`
still 0 — the code has no arm incrementing `pull_count` on a non-200
response, so the loop is not bounded by `max_pulls` attempts as the claim
states. -/
theorem C2_pull_budget_not_enforced_on_non200 (n : Nat) :
    pollLoop 4 (List.replicate n (PullEvent.response 500 (Except.ok []))) [] 0 0
      = LoopResult.starved [] 0 n := by
  have h := pollLoop_non200_starves 4 500 (by decide) (Except.ok []) n [] 0 0 (by decide)
  simpa using h

/-! ### C1: cleanup on Failed transitions after session creation -/

/-- Server behaviour of the C1 failing input: session init succeeds, then
the async_exec request returns HTTP 500 — a Failed transition after
session creation. -/
def failedAfterSessionBehavior : ServerBehavior :=
  ⟨goodInit, .response 500 (.ok ⟨none, none, "server error"⟩), [], none, none⟩

/-- C1 (evidence of the code bug): on a Failed transition after session
creation (async_exec answered HTTP 500), the operation returns an error
response having issued zero interrupt_job and zero close_session requests:
the raise jumps to the outer except-block, past the cleanup steps, so they
are not "each issued exactly once" as the claim states. -/
theorem C1_cleanup_skipped_on_failed_transition :
    executePersistentCommandAsync stConn "watch demo.Foo bar returnObj" 5 4
        failedAfterSessionBehavior
      = (stConn, .returned
          (asyncErrorResponse "Exception" "Failed to execute command: HTTP 500")
          ⟨1, 1, 0, 0, 0⟩) := by
  rfl

/-! ### C5: session-init failures owe no cleanup -/

/-- C5: if the init_session request returns a non-200 status, or returns
200 with the sessionId or the consumerId missing from the body, the
operation returns an error response with a non-empty message, and issues
no interrupt_job and no close_session request (nor any async_exec or
pull_results request). -/
theorem C5_init_failure_errors_without_cleanup
    (st : ClientState) (cmd : String) (pt mp : Nat) (b : ServerBehavior)
    (hconn : st.connection.is_connected = true) (hcl : st.hasClient = true)
    (h : (∃ s ibody, b.init = .response s ibody ∧ (s == 200) = false) ∨
         (∃ sid cid, b.init = .response 200 (.ok (sid, cid)) ∧ (sid = none ∨ cid = none))) :
    ∃ r, executePersistentCommandAsync st cmd pt mp b = (st, .returned r ⟨1, 0, 0, 0, 0⟩)
      ∧ r.status = "error" ∧ ∃ m, r.error = some m ∧ m ≠ "" := by
  unfold executePersistentCommandAsync
  rcases h with ⟨s, ibody, hinit, hs⟩ | ⟨sid, cid, hinit, hmiss⟩
  · rw [hinit]
    simp only [hconn, hcl, Bool.not_true, Bool.or_self, Bool.false_eq_true, if_false,
      bne, hs, Bool.not_false, if_true]
    exact ⟨_, rfl, rfl, asyncErrorResponse_error_nonempty _ _⟩
  · rw [hinit]
    have hfalsy : (pyFalsy sid || pyFalsy cid) = true := by
      rcases hmiss with rfl | rfl
      · simp [pyFalsy]
      · simp [pyFalsy]
    simp only [hconn, hcl, Bool.not_true, Bool.or_self, Bool.false_eq_true, if_false]
    simp only [bne_self_eq_false, Bool.false_eq_true, if_false, hfalsy, if_true]
    exact ⟨_, rfl, rfl, asyncErrorResponse_error_nonempty _ _⟩

/-- Server behaviour of the C5 witness: init_session answers HTTP 500. -/
def initFail500Behavior : ServerBehavior :=
  ⟨.response 500 (.ok (none, none)), goodExec, [], none, none⟩

theorem C5_init_failure_errors_without_cleanup_witness :
    ∃ r, executePersistentCommandAsync stConn "watch demo.Foo bar" 5 4 initFail500Behavior
        = (stConn, .returned r ⟨1, 0, 0, 0, 0⟩)
      ∧ r.status = "error" ∧ ∃ m, r.error = some m ∧ m ≠ "" :=
  C5_init_failure_errors_without_cleanup stConn "watch demo.Foo bar" 5 4 initFail500Behavior
    rfl rfl (Or.inl ⟨500, Except.ok (none, none), rfl, by decide⟩)

/-! ### C3: the terminal marker stops polling, retaining the whole batch -/

/-- C3: if the (N = pre.length + 1)-th poll batch is the first containing a
terminal marker (a record with type "status" and statusCode 0), all earlier
attempts being timeouts or marker-free 200 batches, and N ≤ max_pulls, then
the orchestration stops after exactly N pull attempts and returns success
with every record of batches 1..N in arrival order — including the records
of batch N that follow the marker. -/
theorem C3_marker_stops_after_N_with_full_batch
    (st : ClientState) (cmd : String) (pt mp : Nat) (b : ServerBehavior)
    (hconn : st.connection.is_connected = true) (hcl : st.hasClient = true)
    (sid cid : String) (hsid : (sid == "") = false) (hcid : (cid == "") = false)
    (hinit : b.init = .response 200 (.ok (some sid, some cid)))
    (ebody : ExecBody) (hexec : b.exec = .response 200 (.ok ebody))
    (hstate : ebody.state = some "SCHEDULED")
    (pre : List PullEvent) (last : List ResultRec) (rest : List PullEvent)
    (hpulls : b.pulls = pre ++ PullEvent.response 200 (Except.ok last) :: rest)
    (hall : ∀ e ∈ pre, countingNonTerminal e)
    (hN : pre.length + 1 ≤ mp)
    (hterm : last.any isTerminalRec = true) :
    executePersistentCommandAsync st cmd pt mp b =
      (st, .returned (asyncSuccessResponse cmd ((pre.map eventBatch).flatten ++ last))
        ⟨1, 1, pre.length + 1, 1, 1⟩) := by
  rw [orch_run_loop st cmd pt mp b hconn hcl sid cid hsid hcid hinit ebody hexec hstate,
    hpulls, pollLoop_marker mp pre [] 0 0 last rest hall (by omega) hterm]
  have hlastne : last ≠ [] := by
    intro hl
    rw [hl] at hterm
    simp at hterm
  have hne : ((pre.map eventBatch).flatten ++ last).isEmpty = false := by
    rcases List.exists_cons_of_ne_nil hlastne with ⟨a, as, rfl⟩
    cases (pre.map eventBatch).flatten <;> rfl
  unfold afterLoop
  simp [hne]

/-- Server behaviour of the C3 witness: a timeout, an interim batch, then a
batch whose marker is followed by a further record. -/
def markerBehavior : ServerBehavior :=
  ⟨goodInit, goodExec,
    [PullEvent.timeout, PullEvent.response 200 (Except.ok [interimRec]),
      PullEvent.response 200 (Except.ok [markerRec, trailingRec])],
    none, none⟩

theorem C3_marker_stops_after_N_with_full_batch_witness :
    executePersistentCommandAsync stConn "watch demo.Foo bar returnObj" 5 4 markerBehavior
      = (stConn, .returned
          (asyncSuccessResponse "watch demo.Foo bar returnObj"
            ((([PullEvent.timeout, PullEvent.response 200 (Except.ok [interimRec])]).map
                eventBatch).flatten ++ [markerRec, trailingRec]))
          ⟨1, 1, ([PullEvent.timeout, PullEvent.response 200 (Except.ok [interimRec])]).length + 1,
            1, 1⟩) :=
  C3_marker_stops_after_N_with_full_batch stConn "watch demo.Foo bar returnObj" 5 4
    markerBehavior rfl rfl "sess-1" "cons-1" (by decide) (by decide) rfl goodExecBody rfl rfl
    [PullEvent.timeout, PullEvent.response 200 (Except.ok [interimRec])]
    [markerRec, trailingRec] [] rfl
    (by
      intro e he
      simp only [List.mem_cons, List.not_mem_nil, or_false] at he
      rcases he with rfl | rfl
      · exact Or.inl rfl
      · exact Or.inr ⟨[interimRec], rfl, by decide⟩)
    (by decide) (by decide)

/-! ### C6: budget exhaustion -/

/-- C6: if all max_pulls attempts are timeouts or marker-free 200 batches,
the loop exhausts its budget after exactly max_pulls attempts, cleanup runs
once, and the operation returns warning with an empty results list when
nothing was aggregated, and success with the aggregated records (and their
count, in the message of `asyncSuccessResponse`) otherwise. -/
theorem C6_budget_exhaustion_warning_or_success
    (st : ClientState) (cmd : String) (pt mp : Nat) (b : ServerBehavior)
    (hconn : st.connection.is_connected = true) (hcl : st.hasClient = true)
    (sid cid : String) (hsid : (sid == "") = false) (hcid : (cid == "") = false)
    (hinit : b.init = .response 200 (.ok (some sid, some cid)))
    (ebody : ExecBody) (hexec : b.exec = .response 200 (.ok ebody))
    (hstate : ebody.state = some "SCHEDULED")
    (hall : ∀ e ∈ b.pulls, countingNonTerminal e)
    (hlen : b.pulls.length = mp) :
    executePersistentCommandAsync st cmd pt mp b =
      (st, .returned
        (if ((b.pulls.map eventBatch).flatten).isEmpty then asyncWarningResponse cmd
         else asyncSuccessResponse cmd ((b.pulls.map eventBatch).flatten))
        ⟨1, 1, mp, 1, 1⟩) := by
  rw [orch_run_loop st cmd pt mp b hconn hcl sid cid hsid hcid hinit ebody hexec hstate,
    pollLoop_exhaust mp b.pulls [] 0 0 hall (by omega)]
  unfold afterLoop
  simp [hlen]

/-- Server behaviour of the C6 witness: four straight timeouts. -/
def allTimeoutsBehavior : ServerBehavior :=
  ⟨goodInit, goodExec,
    [PullEvent.timeout, PullEvent.timeout, PullEvent.timeout, PullEvent.timeout], none, none⟩

theorem C6_budget_exhaustion_warning_or_success_witness :
    executePersistentCommandAsync stConn "watch demo.Foo bar" 5 4 allTimeoutsBehavior
      = (stConn, .returned
          (if ((allTimeoutsBehavior.pulls.map eventBatch).flatten).isEmpty then
            asyncWarningResponse "watch demo.Foo bar"
           else asyncSuccessResponse "watch demo.Foo bar"
            ((allTimeoutsBehavior.pulls.map eventBatch).flatten))
          ⟨1, 1, 4, 1, 1⟩) :=
  C6_budget_exhaustion_warning_or_success stConn "watch demo.Foo bar" 5 4 allTimeoutsBehavior
    rfl rfl "sess-1" "cons-1" (by decide) (by decide) rfl goodExecBody rfl rfl
    (by
      intro e he
      simp only [allTimeoutsBehavior, List.mem_cons, List.not_mem_nil, or_false] at he
      rcases he with rfl | rfl | rfl | rfl <;> exact Or.inl rfl)
    rfl

/-! ## One-shot `execute_command`, `connect`, `disconnect` -/

/-- `x if x else dflt` over strings, as in the error-message f-strings. -/
def emptyGuard (x dflt : String) : String := if x == "" then dflt else x

/-- Outcome of the single `exec` POST `execute_command` issues.  On HTTP
200 the nested try/except chain (JSON parse, raw-text fallback, error
dict) always yields some dictionary, abstracted as `bodyRendering`. -/
inductive ExecCmdOutcome where
  | netError (ty msg : String)
  | response (statusCode : Nat) (bodyRendering : String)
deriving DecidableEq

/-- `execute_command` of client.py: the returned response and the number of
HTTP requests issued.  The state is returned unchanged because the method
never writes `self.connection` or `self._client`. -/
def executeCommand (st : ClientState) (command : String) (args : List String)
    (o : ExecCmdOutcome) : ClientState × ArthasResponse × Nat :=
  if !st.connection.is_connected || !st.hasClient then
    (st, notConnectedResponse, 0)
  else
    match o with
    | .netError ty msg =>
      (st, ⟨"error", none, none,
        some ("Command execution failed [" ++ ty ++ "]: "
          ++ emptyGuard (pyExcStr ty msg) "Unknown error")⟩, 1)
    | .response status bodyRendering =>
      if status == 200 then
        (st, ⟨"success",
          some ("Command '"
            ++ ensurePersistentCommandLimits (fullCommandOf command args)
            ++ "' executed successfully"),
          some (.execData bodyRendering), none⟩, 1)
      else
        (st, ⟨"error", none, none,
          some ("Command execution failed [HTTPStatusError]: HTTP " ++ toString status)⟩, 1)
where
  /-- `full_command = command (+ " " + " ".join(filtered_args))`. -/
  fullCommandOf (command : String) (args : List String) : String :=
    if (args.filter (fun a => a.trim != "")).isEmpty then command
    else command ++ " " ++ String.intercalate " " (args.filter (fun a => a.trim != ""))

/-- Outcome of the `version` health-check POST `connect` issues. -/
inductive ConnectOutcome where
  | netError (ty msg : String)
  | response (statusCode : Nat) (bodyRendering : String)
deriving DecidableEq

/-- `disconnect` of client.py.  `acloseRaises` is the exception (if any)
raised by `self._client.aclose()`; when it raises, every state update that
follows it in the method is skipped. -/
def disconnect (st : ClientState) (acloseRaises : Option (String × String)) :
    ClientState × ArthasResponse :=
  match (if st.hasClient then acloseRaises else none) with
  | some (ty, msg) =>
    (st, ⟨"error", none, none,
      some ("Failed to disconnect [" ++ ty ++ "]: "
        ++ emptyGuard (pyExcStr ty msg) "Unknown disconnection error")⟩)
  | none =>
    (⟨⟨st.connection.host, st.connection.port, none, false⟩, false⟩,
      ⟨"success", some "Disconnected from Arthas", none, none⟩)

/-- The part of `connect` after the optional `disconnect` of an existing
client: a fresh HTTP client is created (so `hasClient` is true on every
path, even when the health check fails), the health check is POSTed, and
its outcome is mapped. -/
def connectAfterReset (st1 : ClientState) (o : ConnectOutcome) :
    ClientState × ArthasResponse :=
  match o with
  | .netError ty msg =>
    (⟨⟨st1.connection.host, st1.connection.port, st1.connection.session_id, false⟩, true⟩,
      ⟨"error", none, none,
        some ("Connection failed [" ++ ty ++ "]: "
          ++ emptyGuard (pyExcStr ty msg) "Unknown connection error")⟩)
  | .response status bodyRendering =>
    if status == 200 then
      (⟨⟨st1.connection.host, st1.connection.port, st1.connection.session_id, true⟩, true⟩,
        ⟨"success",
          some ("Connected to Arthas WebConsole: " ++ st1.connection.host ++ ":"
            ++ toString st1.connection.port),
          some (.connectData bodyRendering), none⟩)
    else
      (⟨⟨st1.connection.host, st1.connection.port, st1.connection.session_id, false⟩, true⟩,
        ⟨"error", none, none,
          some ("Connection failed [HTTPStatusError]: HTTP " ++ toString status)⟩)

/-- `connect` of client.py: when a client already exists, `disconnect` runs
first (it never raises), then the health check decides the outcome. -/
def connect (st : ClientState) (acloseRaises : Option (String × String))
    (o : ConnectOutcome) : ClientState × ArthasResponse :=
  connectAfterReset (if st.hasClient then (disconnect st acloseRaises).1 else st) o

/-! ### C10: not-connected short circuit -/

/-- C10: when the client is not connected (flag false, or no HTTP client),
both execute_command and execute_persistent_command_async return the "Not
connected" error response, issue zero HTTP requests, and leave the client
state unmodified. -/
theorem C10_not_connected_short_circuits
    (st : ClientState) (cmd acmd : String) (args : List String) (o : ExecCmdOutcome)
    (pt mp : Nat) (b : ServerBehavior)
    (h : st.connection.is_connected = false ∨ st.hasClient = false) :
    executeCommand st cmd args o = (st, notConnectedResponse, 0) ∧
    executePersistentCommandAsync st acmd pt mp b
      = (st, .returned notConnectedResponse ⟨0, 0, 0, 0, 0⟩) := by
  have hcond : (!st.connection.is_connected || !st.hasClient) = true := by
    rcases h with h | h <;> simp [h]
  constructor
  · unfold executeCommand
    rw [if_pos hcond]
  · unfold executePersistentCommandAsync
    rw [if_pos hcond]

/-- A disconnected client state. -/
def stDisconn : ClientState := ⟨⟨"localhost", 8563, none, false⟩, false⟩

theorem C10_not_connected_short_circuits_witness :
    executeCommand stDisconn "jvm" [] (ExecCmdOutcome.response 200 "body")
        = (stDisconn, notConnectedResponse, 0) ∧
    executePersistentCommandAsync stDisconn "watch demo.Foo bar" 5 4 allTimeoutsBehavior
        = (stDisconn, .returned notConnectedResponse ⟨0, 0, 0, 0, 0⟩) :=
  C10_not_connected_short_circuits stDisconn "jvm" "watch demo.Foo bar" []
    (ExecCmdOutcome.response 200 "body") 5 4 allTimeoutsBehavior (Or.inl rfl)

/-! ### C8: the status/error invariant -/

/-- The response invariant of the spec: status "error" carries a non-empty
error field; status "success" or "warning" carries an empty (None) one. -/
def respInvariant (r : ArthasResponse) : Prop :=
  (r.status = "error" → ∃ m, r.error = some m ∧ m ≠ "") ∧
  ((r.status = "success" ∨ r.status = "warning") → r.error = none)

theorem prefixed_msg_ne_empty (p ty sep x : String) (hp : p ≠ "") :
    p ++ ty ++ sep ++ x ≠ "" :=
  append_ne_empty_left _ _ (append_ne_empty_left _ _ (append_ne_empty_left _ _ hp))

theorem respInvariant_notConnected : respInvariant notConnectedResponse :=
  ⟨fun _ => ⟨_, rfl, by decide⟩, fun hs => by rcases hs with hs | hs <;> exact absurd hs (by decide)⟩

theorem respInvariant_asyncError (ty msg : String) :
    respInvariant (asyncErrorResponse ty msg) := by
  refine ⟨fun _ => asyncErrorResponse_error_nonempty ty msg, fun hs => ?_⟩
  rcases hs with hs | hs <;> simp [asyncErrorResponse] at hs

theorem respInvariant_asyncSuccess (cmd : String) (allResults : List ResultRec) :
    respInvariant (asyncSuccessResponse cmd allResults) := by
  refine ⟨fun hs => ?_, fun _ => rfl⟩
  simp [asyncSuccessResponse] at hs

theorem respInvariant_asyncWarning (cmd : String) :
    respInvariant (asyncWarningResponse cmd) := by
  refine ⟨fun hs => ?_, fun _ => rfl⟩
  simp [asyncWarningResponse] at hs

/-- Every response `execute_persistent_command_async` returns is one of
its four constructors. -/
theorem orch_returned_shapes (st st2 : ClientState) (cmd : String) (pt mp : Nat)
    (b : ServerBehavior) (r : ArthasResponse) (tr : Trace)
    (h : executePersistentCommandAsync st cmd pt mp b = (st2, .returned r tr)) :
    r = notConnectedResponse ∨ (∃ ty msg, r = asyncErrorResponse ty msg) ∨
      (∃ allResults, r = asyncSuccessResponse cmd allResults) ∨
      r = asyncWarningResponse cmd := by
  unfold executePersistentCommandAsync afterLoop at h
  repeat' split at h
  all_goals
    first
      | exact OrchOutcome.noConfusion (congrArg Prod.snd h)
      | (have hsnd := congrArg Prod.snd h
         injection hsnd with h1 h2
         subst h1
         first
           | exact Or.inl rfl
           | exact Or.inr (Or.inl ⟨_, _, rfl⟩)
           | exact Or.inr (Or.inr (Or.inl ⟨_, rfl⟩))
           | exact Or.inr (Or.inr (Or.inr rfl)))

theorem connect_resp_invariant (st : ClientState) (ac : Option (String × String))
    (o : ConnectOutcome) : respInvariant (connect st ac o).2 := by
  unfold connect connectAfterReset
  cases o with
  | netError ty msg =>
    dsimp only
    exact ⟨fun _ => ⟨_, rfl, prefixed_msg_ne_empty _ _ _ _ (by decide)⟩,
      fun hs => by rcases hs with hs | hs <;> simp at hs⟩
  | response status bodyRendering =>
    dsimp only
    by_cases hst : (status == 200) = true
    · rw [if_pos hst]
      exact ⟨fun hs => by simp at hs, fun _ => rfl⟩
    · rw [if_neg hst]
      exact ⟨fun _ => ⟨_, rfl, append_ne_empty_left _ _ (by decide)⟩,
        fun hs => by rcases hs with hs | hs <;> simp at hs⟩

theorem disconnect_resp_invariant (st : ClientState) (ac : Option (String × String)) :
    respInvariant (disconnect st ac).2 := by
  unfold disconnect
  split
  · exact ⟨fun _ => ⟨_, rfl, prefixed_msg_ne_empty _ _ _ _ (by decide)⟩,
      fun hs => by rcases hs with hs | hs <;> simp at hs⟩
  · exact ⟨fun hs => by simp at hs, fun _ => rfl⟩

theorem executeCommand_resp_invariant (st : ClientState) (cmd : String)
    (args : List String) (o : ExecCmdOutcome) :
    respInvariant (executeCommand st cmd args o).2.1 := by
  unfold executeCommand
  split
  · exact respInvariant_notConnected
  · cases o with
    | netError ty msg =>
      dsimp only
      exact ⟨fun _ => ⟨_, rfl, prefixed_msg_ne_empty _ _ _ _ (by decide)⟩,
        fun hs => by rcases hs with hs | hs <;> simp at hs⟩
    | response status bodyRendering =>
      dsimp only
      by_cases hst : (status == 200) = true
      · rw [if_pos hst]
        exact ⟨fun hs => by simp at hs, fun _ => rfl⟩
      · rw [if_neg hst]
        exact ⟨fun _ => ⟨_, rfl, append_ne_empty_left _ _ (by decide)⟩,
          fun hs => by rcases hs with hs | hs <;> simp at hs⟩

/-- C8: every ArthasResponse produced by connect, disconnect,
execute_command or execute_persistent_command_async satisfies the status
invariant: status "error" implies a non-empty error field, and status
"success" or "warning" implies an empty error field. -/
theorem C8_response_status_invariant
    (stc : ClientState) (ac : Option (String × String)) (oc : ConnectOutcome)
    (std : ClientState) (ad : Option (String × String))
    (ste : ClientState) (cmd : String) (args : List String) (oe : ExecCmdOutcome)
    (sta : ClientState) (acmd : String) (pt mp : Nat) (b : ServerBehavior) :
    respInvariant (connect stc ac oc).2 ∧
    respInvariant (disconnect std ad).2 ∧
    respInvariant (executeCommand ste cmd args oe).2.1 ∧
    (match (executePersistentCommandAsync sta acmd pt mp b).2 with
     | .returned r _ => respInvariant r
     | .blocked _ _ => True) := by
  refine ⟨connect_resp_invariant stc ac oc, disconnect_resp_invariant std ad,
    executeCommand_resp_invariant ste cmd args oe, ?_⟩
  cases horch : (executePersistentCommandAsync sta acmd pt mp b).2 with
  | blocked allResults tr => exact trivial
  | returned r tr =>
    have hpair : executePersistentCommandAsync sta acmd pt mp b
        = ((executePersistentCommandAsync sta acmd pt mp b).1, OrchOutcome.returned r tr) := by
      rw [← horch]
    rcases orch_returned_shapes sta _ acmd pt mp b r tr hpair with
      hr | ⟨ty, msg, hr⟩ | ⟨allResults, hr⟩ | hr
    · exact hr ▸ respInvariant_notConnected
    · exact hr ▸ respInvariant_asyncError ty msg
    · exact hr ▸ respInvariant_asyncSuccess acmd allResults
    · exact hr ▸ respInvariant_asyncWarning acmd

/-! ### C9: no escape from the orchestration boundary -/

/-- A poll outcome that is not a non-200 HTTP response: the loop counts
it, exits on it, or raises on it.  (A non-200 response is the one outcome
the loop silently ignores without advancing its counter.) -/
def countsOrExits (e : PullEvent) : Prop :=
  ∀ s eb, e = PullEvent.response s eb → (s == 200) = true

theorem pollLoop_terminates (mp : Nat) (events : List PullEvent) :
    ∀ acc pc pi, (∀ e ∈ events, countsOrExits e) → mp ≤ pc + events.length →
      (∃ allResults pi2, pollLoop mp events acc pc pi = .exited allResults pi2) ∨
      (∃ ty msg pi2, pollLoop mp events acc pc pi = .raised ty msg pi2) := by
  induction events with
  | nil =>
    intro acc pc pi _ hlen
    left
    refine ⟨acc, pi, ?_⟩
    simp only [List.length_nil, Nat.add_zero] at hlen
    conv_lhs => rw [pollLoop.eq_def]
    simp [Nat.not_lt.mpr hlen]
  | cons e rest ih =>
    intro acc pc pi hall hlen
    simp only [List.length_cons] at hlen
    by_cases hpc : pc < mp
    · cases e with
      | timeout =>
        rw [pollLoop_step mp _ rest acc pc pi hpc (Or.inl rfl)]
        exact ih _ _ _ (fun x hx => hall x (by simp [hx])) (by omega)
      | netError ty msg =>
        right
        refine ⟨ty, msg, pi + 1, ?_⟩
        conv_lhs => rw [pollLoop.eq_def]
        simp [hpc]
      | response s eb =>
        have hs : (s == 200) = true := hall _ (by simp) s eb rfl
        have hs2 : s = 200 := by simpa using hs
        subst hs2
        cases eb with
        | error m =>
          right
          refine ⟨"JSONDecodeError", m, pi + 1, ?_⟩
          conv_lhs => rw [pollLoop.eq_def]
          simp [hpc]
        | ok results =>
          by_cases hterm : results.any isTerminalRec = true
          · left
            refine ⟨acc ++ results, pi + 1, ?_⟩
            have hres : results.isEmpty = false := by
              cases results with
              | nil => simp at hterm
              | cons a as => rfl
            conv_lhs => rw [pollLoop.eq_def]
            simp [hpc, hres, hterm]
          · rw [pollLoop_step mp _ rest acc pc pi hpc
              (Or.inr ⟨results, rfl, by simpa using hterm⟩)]
            exact ih _ _ _ (fun x hx => hall x (by simp [hx])) (by omega)
    · left
      refine ⟨acc, pi, ?_⟩
      conv_lhs => rw [pollLoop.eq_def]
      simp [hpc]

/-- Server behaviour family of the C9 counterexample: healthy session init
and scheduling, then every pull_results request answered HTTP 500;
`pullsAnswered` is how much of the endless behaviour is supplied. -/
def all500PullsBehavior (pullsAnswered : Nat) : ServerBehavior :=
  ⟨goodInit, goodExec,
    List.replicate pullsAnswered (PullEvent.response 500 (Except.ok [])), none, none⟩

/-- The orchestration never returns under the all-500 pull behaviour:
however many HTTP-500 pull responses the server supplies, the call is
still inside the poll loop, with that many pull requests already issued
and the attempt counter still at 0. -/
def orchDivergesOnAll500Pulls : Prop :=
  ∀ n, executePersistentCommandAsync stConn "watch demo.Foo bar" 5 4 (all500PullsBehavior n)
    = (stConn, .blocked [] ⟨1, 1, n, 0, 0⟩)

/-- C9 counterexample: a server whose every pull_results response is HTTP
500 is a "behaviour of the remote server (any HTTP status ...)" under
which the invocation does not return an ArthasResponse at all — it stays
in the poll loop for every amount of server behaviour supplied — so the
claim's universal statement fails. -/
theorem C9_counterexample_neverReturns_on_500_pulls : orchDivergesOnAll500Pulls := by
  intro n
  rw [orch_run_loop stConn "watch demo.Foo bar" 5 4 (all500PullsBehavior n) rfl rfl
    "sess-1" "cons-1" (by decide) (by decide) rfl goodExecBody rfl rfl]
  have hp : (all500PullsBehavior n).pulls
      = List.replicate n (PullEvent.response 500 (Except.ok [])) := rfl
  rw [hp, pollLoop_non200_starves 4 500 (by decide) (Except.ok []) n [] 0 0 (by decide)]
  simp

/-- C9 amended: for every input and every server behaviour that does not
keep answering pull_results with non-200 statuses past the attempt budget
(formally: at least max_pulls poll outcomes are supplied and none of them
is a non-200 response — under an endless non-200 stream the call never
returns, see the counterexample), execute_persistent_command_async returns
an ArthasResponse whose status is success, warning, or error, and every
failure is converted at the orchestration boundary into status error with
a non-empty human-readable message. -/
theorem C9_amended_always_returns_uniform_response
    (st : ClientState) (cmd : String) (pt mp : Nat) (b : ServerBehavior)
    (hpulls : ∀ e ∈ b.pulls, countsOrExits e)
    (hlen : mp ≤ b.pulls.length) :
    ∃ r tr, executePersistentCommandAsync st cmd pt mp b = (st, .returned r tr) ∧
      (r.status = "success" ∨ r.status = "warning" ∨
        (r.status = "error" ∧ ∃ m, r.error = some m ∧ m ≠ "")) := by
  have herr : ∀ ty msg, (asyncErrorResponse ty msg).status = "success" ∨
      (asyncErrorResponse ty msg).status = "warning" ∨
      ((asyncErrorResponse ty msg).status = "error" ∧
        ∃ m, (asyncErrorResponse ty msg).error = some m ∧ m ≠ "") :=
    fun ty msg => Or.inr (Or.inr ⟨rfl, asyncErrorResponse_error_nonempty ty msg⟩)
  unfold executePersistentCommandAsync
  split
  · exact ⟨_, _, rfl, Or.inr (Or.inr ⟨rfl, ⟨_, rfl, by decide⟩⟩)⟩
  · split
    · exact ⟨_, _, rfl, herr _ _⟩
    · split
      · exact ⟨_, _, rfl, herr _ _⟩
      · split
        · exact ⟨_, _, rfl, herr _ _⟩
        · split
          · exact ⟨_, _, rfl, herr _ _⟩
          · split
            · exact ⟨_, _, rfl, herr _ _⟩
            · split
              · exact ⟨_, _, rfl, herr _ _⟩
              · split
                · exact ⟨_, _, rfl, herr _ _⟩
                · split
                  · exact ⟨_, _, rfl, herr _ _⟩
                  · rcases pollLoop_terminates mp b.pulls [] 0 0 hpulls (by omega) with
                      ⟨allResults, pi2, hloop⟩ | ⟨ty, msg, pi2, hloop⟩
                    · rw [hloop]
                      dsimp only
                      unfold afterLoop
                      split
                      · exact ⟨_, _, rfl, Or.inr (Or.inl rfl)⟩
                      · exact ⟨_, _, rfl, Or.inl rfl⟩
                    · rw [hloop]
                      exact ⟨_, _, rfl, herr _ _⟩

theorem C9_amended_always_returns_uniform_response_witness :
    ∃ r tr, executePersistentCommandAsync stConn "watch demo.Foo bar" 5 4 allTimeoutsBehavior
        = (stConn, .returned r tr) ∧
      (r.status = "success" ∨ r.status = "warning" ∨
        (r.status = "error" ∧ ∃ m, r.error = some m ∧ m ≠ "")) :=
  C9_amended_always_returns_uniform_response stConn "watch demo.Foo bar" 5 4 allTimeoutsBehavior
    (by
      intro e he
      show ∀ s eb, e = PullEvent.response s eb → (s == 200) = true
      intro s eb heq
      simp only [allTimeoutsBehavior, List.mem_cons, List.not_mem_nil, or_false] at he
      rcases he with rfl | rfl | rfl | rfl <;> exact PullEvent.noConfusion heq)
    (by decide)

end ArthasMcp
